import Mathlib

/-!
Verification of the pattern-matching and log-record decoding core of the
sniffles-cdk repository (src/lib/filterLambda.ts, src/lib/subscriptionLambda.ts,
src/lib/subscriberLambda.ts, src/lib/opsGenie/forwarderLambda.ts).

The TypeScript workers are embedded shallowly:

* JavaScript exceptions and promise rejections are modelled with
  `Except String`; a rejected promise / thrown exception is `Except.error`.
* External engines (the JS `RegExp` engine, `JSON.parse`, `jspath.apply`,
  the base64/gzip/JSON record decode, SNS/SSM/CloudWatch calls) are
  parameters of the embedding, grouped in runtime/environment structures.
  The two regular expressions that the source applies with fixed literal
  text (`/^\/([^\/]+)\/([gimsuy]*)$/` and `/({[\s\S]+})/` and
  `/[sS]niffles/`) are embedded directly as Lean functions, since their
  semantics on JS strings is fixed and elementary.
* Lists stand for JS arrays, `String` for JS strings (as sequences of
  characters), structures for the record shapes.
-/

namespace Sniffles

/-- Matching prefix test on character lists: `startsList n h` is true iff
`n` occurs at the very beginning of `h`. -/
def startsList : List Char → List Char → Bool
  | [], _ => true
  | _ :: _, [] => false
  | a :: as, b :: bs => a == b && startsList as bs

/-- Embedding of JavaScript `hay.includes(needle)` / ramda `includes(needle, hay)`
on strings: case-sensitive containment of `needle` in `hay` at any position
(the empty needle is contained in every string). -/
def containsList : List Char → List Char → Bool
  | n, [] => n.isEmpty
  | n, b :: bs => startsList n (b :: bs) || containsList n bs

/-- JS `hay.includes(needle)` on `String`. -/
def jsStringIncludes (hay needle : String) : Bool :=
  containsList needle.data hay.data

/-- Ramda `take (n, s)` on a string: the first `n` characters. -/
def jsTake (n : Nat) (s : String) : String :=
  String.mk (s.data.take n)

/-- Split a character list at the first occurrence of `'{'`:
`splitFirstOpen cs = some (pre, rest)` with `cs = pre ++ rest`, no `'{'` in
`pre` and `rest` beginning with `'{'`; `none` when `cs` has no `'{'`. -/
def splitFirstOpen : List Char → Option (List Char × List Char)
  | [] => none
  | c :: cs =>
    if c = '{' then some ([], c :: cs)
    else (splitFirstOpen cs).map (fun p => (c :: p.1, p.2))

/-- Split a character list just after the last occurrence of `'}'`:
`splitLastClose cs = some (blk, post)` with `cs = blk ++ post`, `blk` ending
in `'}'` and no `'}'` in `post`; `none` when `cs` has no `'}'`. -/
def splitLastClose : List Char → Option (List Char × List Char)
  | [] => none
  | c :: cs =>
    match splitLastClose cs with
    | some (blk, post) => some (c :: blk, post)
    | none => if c = '}' then some ([c], cs) else none

/-- Split a character list just after the first occurrence of `'}'`. -/
def splitFirstClose : List Char → Option (List Char × List Char)
  | [] => none
  | c :: cs =>
    if c = '}' then some ([c], cs)
    else (splitFirstClose cs).map (fun p => (c :: p.1, p.2))

/-- Embedding of the capture group of `message.match(/({[\s\S]+})/)` from
src/lib/filterLambda.ts line 143 (`groupMatch` composed with `head`).
The pattern is greedy: a match starts at the first `'{'` that is followed,
at distance at least two, by some `'}'`, and since `[\s\S]+` matches every
character the greedy quantifier extends the match to the last `'}'` of the
whole string. Hence the capture is the segment from the first `'{'` to the
last `'}'`, provided at least one character lies strictly between them;
otherwise there is no match. -/
def jsFirstBraceBlock (s : String) : Option String :=
  match splitFirstOpen s.data with
  | none => none
  | some (_, rest) =>
    match splitLastClose rest with
    | none => none
    | some (blk, _) => if 3 ≤ blk.length then some (String.mk blk) else none

/-- Modelled from the spec: the capture the specification describes for the
JSON-path matcher, a NON-greedy (`lazy`) first `{...}` block: from the first
`'{'` to the first `'}'` lying at least two positions later (the shortest
span from the first `'{'`). Written to be compared with `jsFirstBraceBlock`,
which embeds the source's greedy regex. -/
def specNonGreedyBraceBlock (s : String) : Option String :=
  match splitFirstOpen s.data with
  | none => none
  | some (_, rest) =>
    match rest with
    | [] => none
    | o :: t =>
      match t with
      | [] => none
      | m :: t2 =>
        match splitFirstClose t2 with
        | none => none
        | some (mid, _) => some (String.mk (o :: m :: mid))

/-- Split a character list at the first `'/'`, returning the part before and
after it. Used to parse the `/body/flags` shape. -/
def splitOnFirstSlash : List Char → Option (List Char × List Char)
  | [] => none
  | c :: cs =>
    if c = '/' then some ([], cs)
    else (splitOnFirstSlash cs).map (fun p => (c :: p.1, p.2))

/-- Parse the whole string against the anchored shape `/body/flags` where
`body` is one or more characters none of which is `'/'` and every character
of `flags` satisfies `flagOk`. Returns the body and the flags. -/
def parseSlashForm (flagOk : Char → Bool) (p : String) : Option (String × String) :=
  match p.data with
  | '/' :: t =>
    match splitOnFirstSlash t with
    | some (body, flags) =>
      if body.isEmpty then none
      else if flags.all flagOk then some (String.mk body, String.mk flags)
      else none
    | none => none
  | _ => none

/-- Character class `[gimsuy]` of JS regex flags, as used by the source's
shape test `/^\/[^\/]+\/[gimsuy]*$/` (src/lib/filterLambda.ts lines 108 and 152). -/
def isFlagChar (c : Char) : Bool :=
  c = 'g' || c = 'i' || c = 'm' || c = 's' || c = 'u' || c = 'y'

/-- Embedding of the source's regex-literal shape test and extraction: the
test `test(/^\/[^\/]+\/[gimsuy]*$/)` succeeds exactly when this parse
returns `some`, and `toRegExp` (line 107) extracts exactly these two
capture groups. Since the body class `[^\/]+` excludes `'/'`, the second
`'/'` of the string is its first `'/'` after the opening one, so the parse
is deterministic. -/
def parseRegexLiteral (p : String) : Option (String × String) :=
  parseSlashForm isFlagChar p

/-- Modelled from the spec: the shape `^/[^/]+/[a-z]*$` that the
specification (and claim C8) gives for the regex-literal arm, with flags
drawn from the whole class `[a-z]` instead of the source's `[gimsuy]`. -/
def specLowerFlag (c : Char) : Bool :=
  'a' ≤ c && c ≤ 'z'

/-- Modelled from the spec: test for the spec's regex-literal shape
`^/[^/]+/[a-z]*$`. -/
def specRegexShape (p : String) : Bool :=
  (parseSlashForm specLowerFlag p).isSome

/-- Ramda `startsWith ('{')` on a string. -/
def startsWithOpenBrace (p : String) : Bool :=
  match p.data with
  | c :: _ => c = '{'
  | [] => false

/-- Ramda `endsWith ('}')` on a string. -/
def endsWithCloseBrace (p : String) : Bool :=
  match p.data.getLast? with
  | some c => c = '}'
  | none => false

/-! ## Data model (src/lib/filterLambda.ts lines 38-53) -/

/-- One CloudWatch log event. -/
structure LogEvent where
  id : String
  timestamp : Int
  message : String
deriving DecidableEq, Repr

/-- The decoded CloudWatch Logs envelope (`LogMessage`). -/
structure LogMessage where
  messageType : String
  owner : String
  logGroup : String
  logStream : String
  subscriptionFilters : List String
  logEvents : List LogEvent
  logLink : Option String := none
deriving DecidableEq, Repr

/-- One raw Kinesis record; `data` is the base64 payload found at
`record.kinesis.data`. -/
structure KinesisRecord where
  data : String
deriving DecidableEq, Repr

/-! ## External JavaScript collaborators

The matcher layer calls three engines that live outside the repository:
the `RegExp` constructor and its `test` method, `JSON.parse`, and
`jspath.apply`. They are modelled as parameters, with `Except.error`
standing for a thrown exception. `V` is the type of parsed JSON values
(a black box to the embedded code, which only passes them along). -/

structure JsRuntime (V : Type) where
  /-- `new RegExp(body, flags)` followed by `test`: either a total test
  function on strings, or a thrown `SyntaxError` when the engine rejects
  the body. (JS `RegExp.prototype.test` itself never throws.) -/
  regexCompile : String → String → Except String (String → Bool)
  /-- `JSON.parse` on a string. -/
  jsonParse : String → Except String V
  /-- `jspath.apply(path, value)`: the list of results, or a thrown error
  (jspath raises on a syntactically invalid path expression). -/
  jspathApply : String → V → Except String (List V)
  /-- The record decode chain of `parseRecord` (src/lib/filterLambda.ts
  lines 119-126) up to and including `JSON.parse`: base64-decode (never
  throws), opportunistic gunzip (`unzip` catches its own failure and passes
  the bytes through, lines 112-118), `toString`, `JSON.parse` into a
  `LogMessage` (throws on malformed JSON). -/
  decodeData : String → Except String LogMessage

/-- A compiled matcher: a predicate on message text that may throw. -/
abbrev Matcher := String → Except String Bool

/-- Embedding of ramda `anyPass` applied to matchers that may throw: the
functions are tried left to right, the first `true` short-circuits, and a
thrown exception propagates. -/
def anyPassE (fns : List Matcher) (msg : String) : Except String Bool :=
  match fns with
  | [] => Except.ok false
  | f :: rest => do
    let b ← f msg
    if b then pure true else anyPassE rest msg

/-- Effectful `map` over a list, as `Array.prototype.map` behaves when the
callback may throw (and as `Promise.all` behaves over the resulting
promises): results in order, first exception aborts. -/
def mapME (f : α → Except String β) : List α → Except String (List β)
  | [] => Except.ok []
  | a :: as => do
    let b ← f a
    let bs ← mapME f as
    pure (b :: bs)

/-- Effectful ramda `filter` with a predicate that may throw: elements are
tested in order, the first exception aborts. -/
def filterE (p : α → Except String Bool) : List α → Except String (List α)
  | [] => Except.ok []
  | a :: as => do
    let b ← p a
    let rest ← filterE p as
    pure (if b then a :: rest else rest)

/-- Effectful ramda `reject`: `filter` with the complemented predicate. -/
def rejectE (p : α → Except String Bool) (xs : List α) : Except String (List α) :=
  filterE (fun a => (p a).map (fun b => !b)) xs

/-! ## Pattern-matcher compiler (src/lib/filterLambda.ts lines 137-155) -/

/-- Embedding of `toJspathFn` (lines 141-150). The stages mirror the
fp-ts Option pipeline of the source:
`groupMatch(/({[\s\S]+})/)` then `head` is `jsFirstBraceBlock`; a `none`
flows through every `map`/`chain` to the final `getOrElse(() => false)`.
`JSON.parse` is wrapped in `tryCatch`, so its exception also becomes
`none` and then `false`. The `jspath.apply` call, however, sits inside a
plain `Option.map`, which does NOT catch: an exception thrown there
propagates out of the matcher. The final stages `length` then `gt 0`
reduce the result list to `length > 0`. -/
def toJspathFn (rt : JsRuntime V) (str : String) : Matcher :=
  fun msg =>
    match jsFirstBraceBlock msg with
    | none => Except.ok false
    | some block =>
      match rt.jsonParse block with
      | Except.error _ => Except.ok false
      | Except.ok v =>
        match rt.jspathApply ("." ++ str) v with
        | Except.error e => Except.error e
        | Except.ok results => Except.ok (decide (results.length > 0))

/-- Embedding of `toMatcherFunction` (lines 151-155), the `cond` dispatch:
first the regex-literal shape `^\/[^\/]+\/[gimsuy]*$` (in which case
`toRegExpFn = pipe(toRegExp, test)` constructs the `RegExp` immediately,
so an engine rejection of the body is thrown at compile time); then the
brace shape `startsWith('{') && endsWith('}')` giving the jspath matcher;
else `toStringFn = includes`, the substring matcher. The shape test and
`toRegExp` use the same anchored regex, embedded as `parseRegexLiteral`. -/
def toMatcherFunction (rt : JsRuntime V) (p : String) : Except String Matcher :=
  match parseRegexLiteral p with
  | some (body, flags) =>
    (rt.regexCompile body flags).map (fun t => fun msg => Except.ok (t msg))
  | none =>
    if startsWithOpenBrace p && endsWithCloseBrace p then
      Except.ok (toJspathFn rt p)
    else
      Except.ok (fun msg => Except.ok (jsStringIncludes msg p))

/-- Apply a possibly-failed compilation result to a message: the thrown
compile error re-raises, otherwise the matcher runs. Used to state facts
about matchers without comparing functions for equality. -/
def applyMatcher (r : Except String Matcher) (msg : String) : Except String Bool :=
  match r with
  | Except.error e => Except.error e
  | Except.ok f => f msg

/-- Apply a possibly-failed `regexCompile` result to a string. -/
def applyCompiledRegex (r : Except String (String → Bool)) (s : String) : Except String Bool :=
  match r with
  | Except.error e => Except.error e
  | Except.ok f => Except.ok (f s)

/-! ## Record decoder and Filter pipeline (src/lib/filterLambda.ts) -/

/-- The expansion step of `parseRecord` (line 126): one single-event
envelope per `LogEvent`, each a copy of the source envelope with
`logEvents` replaced by the corresponding singleton. -/
def expandEnvelope (m : LogMessage) : List LogMessage :=
  m.logEvents.map (fun e => { m with logEvents := [e] })

/-- Embedding of `parseRecord` (lines 119-127): the decode chain (held in
the runtime, see `JsRuntime.decodeData`) followed by the expansion into
single-event envelopes. A decode exception propagates. -/
def parseRecord (rt : JsRuntime V) (r : KinesisRecord) : Except String (List LogMessage) :=
  (rt.decodeData r.data).map expandEnvelope

/-- The `chain(parseRecord)` stage of the handler (line 167): decode every
record of the batch and concatenate the per-record envelope lists in
record order. -/
def decodeAll (rt : JsRuntime V) (records : List KinesisRecord) : Except String (List LogMessage) :=
  (mapME (parseRecord rt) records).map List.flatten

/-- The message text a decoded envelope is matched on:
`path` at logEvents, 0, message (lines 168-169). Ramda `path` yields
`undefined` on a missing index; after expansion every envelope has exactly
one event, so the empty-list default is unreachable in the pipeline. -/
def headMsg (m : LogMessage) : String :=
  match m.logEvents with
  | e :: _ => e.message
  | [] => ""

/-- The filter/reject stages of the handler (lines 168-169): keep the
envelopes whose message satisfies `anyPass` of the inclusion matchers,
then drop those whose message satisfies `anyPass` of the exclusion
matchers. -/
def matchedEnvelopes (incl excl : List Matcher) (flat : List LogMessage) :
    Except String (List LogMessage) := do
  let kept ← filterE (fun m => anyPassE incl (headMsg m)) flat
  rejectE (fun m => anyPassE excl (headMsg m)) kept

/-- Environment of one Filter invocation: the JS runtime, the outcome of
the two SSM pattern fetches (`getInclusionPatterns` / `getExclusionPatterns`,
already trimmed, `Except.error` when the parameter fetch rejects), and the
outcome each `sns.publish(...).promise()` call would settle with. -/
structure FilterEnv (V : Type) where
  rt : JsRuntime V
  inclusionPatterns : Except String (List String)
  exclusionPatterns : Except String (List String)
  publishOutcome : LogMessage → Except String Unit

/-- Embedding of `publishLog` (src/lib/filterLambda.ts lines 130-135):

```ts
export const publishLog = async (log: object) => {
  sns.publish({ TopicArn: topicArn, Message: JSON.stringify(log) }).promise()
}
```

The `async` body neither `await`s nor returns the promise of the SNS call,
so the promise `publishLog` returns resolves with `undefined` immediately
and unconditionally, while the publish outcome is left floating. The first
component is the returned promise's settlement, the second the floating
publish outcome. -/
def publishLog (env : FilterEnv V) (log : LogMessage) :
    Except String Unit × Except String Unit :=
  (Except.ok (), env.publishOutcome log)

/-- Embedding of the Filter `handler` (lines 162-176) up to, but not
including, the final `.catch(console.error)`: fetch and compile the two
pattern lists (`getPatternsFunctions`), decode the batch, filter by
inclusions, reject by exclusions, map `publishLog` over the survivors and
`Promise.all` the returned promises, then resolve `"OK"`. -/
def filterHandlerCore (env : FilterEnv V) (event : List KinesisRecord) :
    Except String String := do
  let inclP ← env.inclusionPatterns
  let exclP ← env.exclusionPatterns
  let incl ← mapME (toMatcherFunction env.rt) inclP
  let excl ← mapME (toMatcherFunction env.rt) exclP
  let flat ← decodeAll env.rt event
  let surv ← matchedEnvelopes incl excl flat
  let _ ← mapME (fun m => (publishLog env m).fst) surv
  pure "OK"

/-- The terminal `.catch(console.error)` shared by the Filter and
Subscription handlers: a rejection is consumed, logged, and replaced by a
resolution with `undefined` (modelled `none`); a resolution with a string
passes through as `some`. The resulting promise never rejects. -/
def jsCatchLog (x : Except String String) : Except String (Option String) :=
  match x with
  | Except.ok s => Except.ok (some s)
  | Except.error _ => Except.ok none

/-- The full Filter `handler`: `filterHandlerCore` with the terminal
`.catch(console.error)`. `Except.ok (some "OK")` is the normal resolution,
`Except.ok none` the resolution with `undefined` produced by the catch;
the handler's promise never rejects. -/
def filterHandler (env : FilterEnv V) (event : List KinesisRecord) :
    Except String (Option String) :=
  jsCatchLog (filterHandlerCore env event)

/-! ## Log-group Selector (src/lib/subscriptionLambda.ts) -/

/-- Embedding of `test(/[sS]niffles/)` (line 94): the regex matches iff the
name contains `sniffles` or `Sniffles` as a substring (the class `[sS]`
followed by the literal `niffles`). -/
def snifflesTest (s : String) : Bool :=
  jsStringIncludes s "sniffles" || jsStringIncludes s "Sniffles"

/-- The pure core of `filterLogGroups` (lines 92-97) once the pattern
strings are compiled: reject names matching `/[sS]niffles/`, keep names
matching at least one inclusion regex, then reject names matching at least
one exclusion regex. Regex `test` never throws, so this stage is total. -/
def selectLogGroups (incl excl : List (String → Bool)) (names : List String) : List String :=
  ((names.filter (fun n => !snifflesTest n)).filter
      (fun n => incl.any (fun f => f n))).filter
    (fun n => !(excl.any (fun f => f n)))

/-- Embedding of `filterLogGroups` (lines 92-97). `patternsToFunctions`
(lines 62-67) maps `str => test(new RegExp(str))` over each list when the
pipe is built, so an engine rejection of a pattern is thrown here; the
inclusion list is compiled before the exclusion list. -/
def filterLogGroups (rt : JsRuntime V) (names inclP exclP : List String) :
    Except String (List String) := do
  let incl ← mapME (fun p => rt.regexCompile p "") inclP
  let excl ← mapME (fun p => rt.regexCompile p "") exclP
  pure (selectLogGroups incl excl names)

/-- Environment of one Selector invocation: the JS runtime, the joint
outcome of `getLogGroupsAndPatterns` (log group names, inclusion patterns,
exclusion patterns — `Except.error` when the listing or either SSM fetch
rejects), and the outcome each `putSubscriptionFilter` call settles with. -/
structure SubEnv (V : Type) where
  rt : JsRuntime V
  logGroupsAndPatterns : Except String (List String × List String × List String)
  subscribeOutcome : String → Except String Unit

/-- Embedding of `subscribeLogGroup` (lines 99-108): the
`putSubscriptionFilter` promise with its own `.catch(console.warn)`, which
absorbs a per-item failure into a resolution. -/
def subscribeLogGroup (env : SubEnv V) (n : String) : Except String Unit :=
  match env.subscribeOutcome n with
  | Except.ok _ => Except.ok ()
  | Except.error _ => Except.ok ()

/-- Embedding of the Selector `handler` (lines 110-117) without the final
catch: fetch groups and patterns, filter, subscribe each survivor
(`Promise.all` over the already-caught per-item promises), resolve `"OK"`. -/
def subscriptionHandlerCore (env : SubEnv V) : Except String String := do
  let (names, inclP, exclP) ← env.logGroupsAndPatterns
  let kept ← filterLogGroups env.rt names inclP exclP
  let _ ← mapME (subscribeLogGroup env) kept
  pure "OK"

/-- The full Selector `handler` with its terminal `.catch(console.error)`. -/
def subscriptionHandler (env : SubEnv V) : Except String (Option String) :=
  jsCatchLog (subscriptionHandlerCore env)

/-! ## Legacy subscriber variant (src/lib/lambdas/subscriber/handler.ts) -/

/-- Embedding of `test(/Sniffles/)` from the older subscriber lambda
(line 77): only the capitalized spelling is matched. -/
def snifflesTestCap (s : String) : Bool :=
  jsStringIncludes s "Sniffles"

/-- Embedding of the older subscriber's `filterLogGroups` (lines 75-79):
reject names matching `/Sniffles/`, then keep names matching at least one
pattern; it has no exclusion list. -/
def subscriberFilterLogGroups (rt : JsRuntime V) (names patterns : List String) :
    Except String (List String) := do
  let fns ← mapME (fun p => rt.regexCompile p "") patterns
  pure ((names.filter (fun n => !snifflesTestCap n)).filter
    (fun n => fns.any (fun f => f n)))

/-! ## Error Forwarder (src/lib/opsGenie/forwarderLambda.ts) -/

/-- The argument assembled for `sns.publish` by the forwarder: the body is
the re-published envelope (`Message: JSON.stringify(logMessage)`, modelled
as the envelope value itself). -/
structure PublishInput where
  topicArn : String
  subject : String
  body : LogMessage
  eventType : String
deriving DecidableEq, Repr

/-- Environment of one Forwarder invocation: the `topic` variable, the
`JSON.parse` of the SNS message body into a `LogMessage`, the `JSON.parse`
of the log event's message text followed by reading its `message` field
(`Except.error` when `JSON.parse` throws), and the publish outcome. -/
structure FwdEnv where
  topic : String
  parseEnvelope : String → Except String LogMessage
  parseInner : String → Except String String
  publishOutcome : PublishInput → Except String Unit

/-- The publish input the Forwarder `handler` (lines 23-37) assembles:
parse the envelope from `event.Records[0].Sns.Message`, read
`logEvents[0].message` (a `TypeError` when `logEvents` is empty), parse it
as JSON to reach the inner `message` — with NO catch, so a parse exception
propagates — and compose `Subject = take(100, owner + ' ' + logGroup + ' '
+ inner)`, `Message = JSON.stringify(logMessage)`, `eventType = "create"`. -/
def forwarderPublishInput (env : FwdEnv) (snsMessage : String) :
    Except String PublishInput := do
  let lm ← env.parseEnvelope snsMessage
  let e ← match lm.logEvents with
    | e :: _ => Except.ok e
    | [] => Except.error "TypeError: cannot read message of undefined"
  let inner ← env.parseInner e.message
  pure { topicArn := env.topic
         subject := jsTake 100 (lm.owner ++ " " ++ lm.logGroup ++ " " ++ inner)
         body := lm
         eventType := "create" }

/-- The Forwarder `handler` over the event's record list
(`event.Records`, of which element 0 is used): assemble the publish input,
`await publish(...)` — whose rejection propagates, the handler has no
catch — and resolve `"OK"`. -/
def forwarderHandler (env : FwdEnv) (event : List String) : Except String String := do
  let msg ← match event with
    | m :: _ => Except.ok m
    | [] => Except.error "TypeError: cannot read Sns of undefined"
  let pin ← forwarderPublishInput env msg
  let _ ← env.publishOutcome pin
  pure "OK"

/-- Embedding of the legacy `parseMessage` (src/lib/keys.ts pipeline copy,
lines 232-238): the same inner-message extraction wrapped in try/catch,
collapsing a parse exception to the empty string. Kept for comparison with
the Forwarder, which lacks the catch. -/
def parseMessageLegacy (parseInner : String → Except String String) (lm : LogMessage) : String :=
  match lm.logEvents with
  | [] => ""
  | e :: _ =>
    match parseInner e.message with
    | Except.ok m => m
    | Except.error _ => ""

/-! ## Concrete instances used by counterexamples and witnesses

Each concrete runtime mirrors the behaviour of the real JavaScript engines
on exactly the inputs it is applied to; the faithfulness of each equation
to JS is noted at the definition. -/

/-- A runtime whose regex engine is instantiated only on metacharacter-free
literal patterns, for which `new RegExp(p).test(s)` is exactly substring
containment. The JSON and decode engines are never consulted where this
runtime is used. -/
def rtLit : JsRuntime Unit where
  regexCompile := fun p _ => Except.ok (fun s => jsStringIncludes s p)
  jsonParse := fun _ => Except.error "unused"
  jspathApply := fun _ _ => Except.error "unused"
  decodeData := fun _ => Except.error "unused"

/-- A runtime whose regex engine rejects the body `"("` — as the JS engine
does: `new RegExp("(")` throws `SyntaxError: Invalid regular expression:
Unterminated group` — and behaves as substring containment on
metacharacter-free literals. -/
def rtParen : JsRuntime Unit where
  regexCompile := fun p _ =>
    if p = "(" then
      Except.error "SyntaxError: Invalid regular expression: Unterminated group"
    else Except.ok (fun s => jsStringIncludes s p)
  jsonParse := fun _ => Except.error "unused"
  jspathApply := fun _ _ => Except.error "unused"
  decodeData := fun _ => Except.error "unused"

/-- A runtime whose regex engine rejects every pattern; any matcher built
through it that does consult the engine is therefore the compile error. -/
def rtCompileFail : JsRuntime Unit where
  regexCompile := fun _ _ => Except.error "COMPILE"
  jsonParse := fun _ => Except.error "unused"
  jspathApply := fun _ _ => Except.error "unused"
  decodeData := fun _ => Except.error "unused"

/-- A runtime for the jspath counterexample: `JSON.parse` accepts exactly
the text `"\x7b \x7d"` (an empty JSON object, as in JS) and rejects other
inputs, and `jspath.apply` throws on the path `".\x7b]\x7d"` — as the real
jspath library does on a syntactically invalid path expression — returning
no results elsewhere. -/
def rtJspathErr : JsRuntime Unit where
  regexCompile := fun _ _ => Except.error "unused"
  jsonParse := fun s =>
    if s = "\x7b \x7d" then Except.ok ()
    else Except.error "SyntaxError: Unexpected token"
  jspathApply := fun path _ =>
    if path = ".\x7b]\x7d" then Except.error "JSPath parse error"
    else Except.ok []
  decodeData := fun _ => Except.error "unused"

/-- A single-event log event fixture. -/
def evC1 : LogEvent :=
  { id := "1", timestamp := 0, message := "ERROR boom" }

/-- The envelope fixture decoded from the C1 record. -/
def msgC1 : LogMessage :=
  { messageType := "DATA_MESSAGE", owner := "111122223333", logGroup := "g"
    logStream := "s", subscriptionFilters := [], logEvents := [evC1] }

/-- The raw record fixture for C1. -/
def recC1 : KinesisRecord := { data := "d0" }

/-- A runtime decoding the C1 record to the C1 envelope (a well-formed
base64+gzip+JSON payload would decode to exactly this value); the regex
engine is as `rtLit` and is only consulted on the literal `"ERROR"`. -/
def rtC1 : JsRuntime Unit where
  regexCompile := fun p _ => Except.ok (fun s => jsStringIncludes s p)
  jsonParse := fun _ => Except.error "unused"
  jspathApply := fun _ _ => Except.error "unused"
  decodeData := fun d =>
    if d = "d0" then Except.ok msgC1 else Except.error "SyntaxError"

/-- The Filter environment for C1: inclusion pattern list `["ERROR"]`,
no exclusions, and an SNS publish that ALWAYS rejects. -/
def envC1 : FilterEnv Unit where
  rt := rtC1
  inclusionPatterns := Except.ok ["ERROR"]
  exclusionPatterns := Except.ok []
  publishOutcome := fun _ => Except.error "SNS publish failed"

/-- A Filter environment whose inclusion-pattern SSM fetch rejects. -/
def envC10f : FilterEnv Unit where
  rt := rtLit
  inclusionPatterns := Except.error "ParameterNotFound: inclusions"
  exclusionPatterns := Except.ok []
  publishOutcome := fun _ => Except.ok ()

/-- A Selector environment whose `getLogGroupsAndPatterns` rejects. -/
def envC10s : SubEnv Unit where
  rt := rtLit
  logGroupsAndPatterns := Except.error "ParameterNotFound: subscription patterns"
  subscribeOutcome := fun _ => Except.ok ()

/-- The log event of the C9 counterexample: its message is not JSON. -/
def evC9 : LogEvent :=
  { id := "9", timestamp := 0, message := "plain text, not JSON" }

/-- The envelope of the C9 counterexample. -/
def msgC9 : LogMessage :=
  { messageType := "DATA_MESSAGE", owner := "111122223333", logGroup := "logGroup!"
    logStream := "s", subscriptionFilters := [], logEvents := [evC9] }

/-- The log event of the C9 witness: its message is the JSON text
carrying the inner message `hello there`. -/
def evC9ok : LogEvent :=
  { id := "9", timestamp := 1
    message := "\x7b\"message\":\"hello there\"\x7d" }

/-- The envelope of the C9 witness (the spec's own scenario 6). -/
def msgC9ok : LogMessage :=
  { messageType := "DATA_MESSAGE", owner := "111122223333", logGroup := "logGroup!"
    logStream := "s", subscriptionFilters := [], logEvents := [evC9ok] }

/-- The Forwarder environment fixture: `JSON.parse` of the two SNS bodies
used yields the two envelopes above, the inner parse succeeds exactly on
the JSON text of `evC9ok` (with inner message `hello there`) and throws
on the non-JSON text of `evC9`, mirroring JS `JSON.parse` on these
inputs. -/
def envC9 : FwdEnv where
  topic := "opsGenieTopic"
  parseEnvelope := fun s =>
    if s = "evt" then Except.ok msgC9
    else if s = "evt2" then Except.ok msgC9ok
    else Except.error "SyntaxError"
  parseInner := fun s =>
    if s = "\x7b\"message\":\"hello there\"\x7d" then Except.ok "hello there"
    else Except.error "SyntaxError: Unexpected token p in JSON"
  publishOutcome := fun _ => Except.ok ()

/-- Two-event envelope fixture for the C3 witness. -/
def msgC3 : LogMessage :=
  { messageType := "DATA_MESSAGE", owner := "o", logGroup := "g"
    logStream := "s", subscriptionFilters := ["f"]
    logEvents := [{ id := "1", timestamp := 10, message := "one" },
                  { id := "2", timestamp := 20, message := "two" }] }

/-- One-event envelope fixture for the C3 witness. -/
def msgC3b : LogMessage :=
  { messageType := "DATA_MESSAGE", owner := "o", logGroup := "g2"
    logStream := "s2", subscriptionFilters := []
    logEvents := [{ id := "3", timestamp := 30, message := "three" }] }

/-- A runtime decoding the two C3 records to the two C3 envelopes. -/
def rtC3 : JsRuntime Unit where
  regexCompile := fun _ _ => Except.error "unused"
  jsonParse := fun _ => Except.error "unused"
  jspathApply := fun _ _ => Except.error "unused"
  decodeData := fun d =>
    if d = "d1" then Except.ok msgC3
    else if d = "d2" then Except.ok msgC3b
    else Except.error "SyntaxError"

/-- The greedy-capture counterexample message: a well-formed JSON object
followed by later text containing a stray closing brace. -/
def msgC7 : String := "\x7b\"a\":1\x7d x \x7d"

/-! ## Support lemmas -/

theorem splitFirstOpen_spec :
    ∀ cs pre rest, splitFirstOpen cs = some (pre, rest) →
      cs = pre ++ rest ∧ '{' ∉ pre ∧ ∃ t, rest = '{' :: t := by
  intro cs
  induction cs with
  | nil => intro pre rest h; simp [splitFirstOpen] at h
  | cons c cs ih =>
    intro pre rest h
    by_cases hc : c = '{'
    · subst hc
      rw [splitFirstOpen, if_pos rfl] at h
      injection h with h2
      injection h2 with hpre hrest
      subst hpre; subst hrest
      exact ⟨rfl, by simp, cs, rfl⟩
    · rw [splitFirstOpen, if_neg hc] at h
      rcases hrec : splitFirstOpen cs with _ | ⟨a, b⟩ <;> rw [hrec] at h
      · exact absurd h (by simp)
      · change some (c :: a, b) = some (pre, rest) at h
        injection h with h2
        injection h2 with hpre hrest
        subst hpre; subst hrest
        obtain ⟨heq, hnot, t, ht⟩ := ih a b hrec
        refine ⟨by simp [heq], ?_, t, ht⟩
        intro hmem
        rcases List.mem_cons.mp hmem with h1 | h1
        · exact hc h1.symm
        · exact hnot h1

theorem splitLastClose_none :
    ∀ cs, splitLastClose cs = none → '}' ∉ cs := by
  intro cs
  induction cs with
  | nil => intro _; simp
  | cons c cs ih =>
    intro h
    rw [splitLastClose] at h
    rcases hrec : splitLastClose cs with _ | ⟨blk, post⟩ <;> rw [hrec] at h
    · by_cases hc : c = '}'
      · rw [if_pos hc] at h; exact absurd h (by simp)
      · rw [if_neg hc] at h
        intro hmem
        rcases List.mem_cons.mp hmem with h1 | h1
        · exact hc h1.symm
        · exact ih hrec h1
    · exact absurd h (by simp)

theorem splitLastClose_spec :
    ∀ cs blk post, splitLastClose cs = some (blk, post) →
      cs = blk ++ post ∧ '}' ∉ post ∧ blk.getLast? = some '}' := by
  intro cs
  induction cs with
  | nil => intro blk post h; simp [splitLastClose] at h
  | cons c cs ih =>
    intro blk post h
    rw [splitLastClose] at h
    rcases hrec : splitLastClose cs with _ | ⟨blk2, post2⟩ <;> rw [hrec] at h
    · by_cases hc : c = '}'
      · rw [if_pos hc] at h
        injection h with h2
        injection h2 with hblk hpost
        subst hblk; subst hpost
        exact ⟨rfl, splitLastClose_none cs hrec, by simp [hc]⟩
      · rw [if_neg hc] at h; exact absurd h (by simp)
    · change some (c :: blk2, post2) = some (blk, post) at h
      injection h with h2
      injection h2 with hblk hpost
      subst hblk; subst hpost
      obtain ⟨heq, hnot, hlast⟩ := ih blk2 post2 hrec
      refine ⟨by simp [heq], hnot, ?_⟩
      rcases blk2 with _ | ⟨x, xs⟩
      · simp at hlast
      · simpa using hlast

theorem splitOnFirstSlash_spec :
    ∀ cs a b, splitOnFirstSlash cs = some (a, b) →
      cs = a ++ '/' :: b ∧ '/' ∉ a := by
  intro cs
  induction cs with
  | nil => intro a b h; simp [splitOnFirstSlash] at h
  | cons c cs ih =>
    intro a b h
    by_cases hc : c = '/'
    · subst hc
      rw [splitOnFirstSlash, if_pos rfl] at h
      injection h with h2
      injection h2 with ha hb
      subst ha; subst hb
      exact ⟨rfl, by simp⟩
    · rw [splitOnFirstSlash, if_neg hc] at h
      rcases hrec : splitOnFirstSlash cs with _ | ⟨a2, b2⟩ <;> rw [hrec] at h
      · exact absurd h (by simp)
      · change some (c :: a2, b2) = some (a, b) at h
        injection h with h2
        injection h2 with ha hb
        subst ha; subst hb
        obtain ⟨heq, hnot⟩ := ih a2 b2 hrec
        refine ⟨by simp [heq], ?_⟩
        intro hmem
        rcases List.mem_cons.mp hmem with h1 | h1
        · exact hc h1.symm
        · exact hnot h1

theorem splitOnFirstSlash_append :
    ∀ a b, '/' ∉ a → splitOnFirstSlash (a ++ '/' :: b) = some (a, b) := by
  intro a
  induction a with
  | nil => intro b _; simp [splitOnFirstSlash]
  | cons c cs ih =>
    intro b hnot
    have hc : ¬ c = '/' := fun hcc => hnot (by rw [hcc]; exact List.mem_cons_self _ _)
    have hcs : '/' ∉ cs := fun hm => hnot (List.mem_cons_of_mem c hm)
    rw [List.cons_append, splitOnFirstSlash, if_neg hc, ih b hcs]
    rfl

theorem strMkData : ∀ s : String, String.mk s.data = s
  | ⟨_⟩ => rfl

theorem strExt {s t : String} (h : s.data = t.data) : s = t :=
  (strMkData s).symm.trans ((congrArg String.mk h).trans (strMkData t))

theorem strDataAppend : ∀ s t : String, (s ++ t).data = s.data ++ t.data
  | ⟨_⟩, ⟨_⟩ => rfl

theorem parseRegexLiteral_char (p body flags : String) :
    parseRegexLiteral p = some (body, flags) ↔
      (p = "/" ++ body ++ "/" ++ flags ∧ body ≠ ""
        ∧ (∀ c ∈ body.data, ¬ c = '/') ∧ (∀ c ∈ flags.data, isFlagChar c = true)) := by
  constructor
  · intro h
    rw [parseRegexLiteral, parseSlashForm] at h
    split at h
    · rename_i t heq
      rcases hsp : splitOnFirstSlash t with _ | ⟨bd, fl⟩ <;> simp only [hsp] at h
      · exact Option.noConfusion h
      · obtain ⟨ht, hnot⟩ := splitOnFirstSlash_spec t bd fl hsp
        by_cases hbd : bd.isEmpty
        · rw [if_pos hbd] at h
          exact Option.noConfusion h
        · rw [if_neg hbd] at h
          by_cases hfl : fl.all isFlagChar
          · rw [if_pos hfl] at h
            injection h with h2
            injection h2 with hbody hflags
            have hpd : p.data = '/' :: (bd ++ '/' :: fl) := by rw [heq, ht]
            refine ⟨?_, ?_, ?_, ?_⟩
            · refine strExt ?_
              rw [hpd, ← hbody, ← hflags]
              simp [strDataAppend]
            · intro hbe
              have hbdnil : bd = [] := congrArg String.data (hbody.trans hbe)
              rw [hbdnil] at hbd
              exact hbd rfl
            · rw [← hbody]
              intro c hc hce
              exact hnot (hce ▸ hc)
            · rw [← hflags]
              exact fun c hc => List.all_eq_true.mp hfl c hc
          · rw [if_neg hfl] at h
            exact Option.noConfusion h
    · exact Option.noConfusion h
  · rintro ⟨hp, hne, hbody, hflags⟩
    have hdata : p.data = '/' :: (body.data ++ '/' :: flags.data) := by
      rw [hp]
      simp [strDataAppend]
    have hnoslash : '/' ∉ body.data := fun hm => (hbody '/' hm) rfl
    rw [parseRegexLiteral, parseSlashForm, hdata]
    simp only [splitOnFirstSlash_append body.data flags.data hnoslash]
    have hbd : body.data.isEmpty = false := by
      rcases hb : body.data with _ | ⟨c, cs⟩
      · exact absurd (strExt (by rw [hb])) hne
      · rfl
    have hfl2 : flags.data.all isFlagChar = true := List.all_eq_true.mpr hflags
    simp [hbd, hfl2, strMkData]

theorem filterE_ok_mem {p : α → Except String Bool} :
    ∀ xs ys, filterE p xs = Except.ok ys →
      ∀ y, (y ∈ ys ↔ y ∈ xs ∧ p y = Except.ok true) := by
  intro xs
  induction xs with
  | nil =>
    intro ys h y
    change Except.ok [] = Except.ok ys at h
    injection h with h
    subst h; simp
  | cons a as ih =>
    intro ys h y
    rw [filterE] at h
    rcases ha : p a with e | b <;> rw [ha] at h
    · exact absurd h (by simp [bind, Except.bind])
    · rcases hrest : filterE p as with e2 | rest <;>
        simp only [bind, Except.bind, hrest] at h
      · exact absurd h (by simp)
      · change Except.ok (if b then a :: rest else rest) = Except.ok ys at h
        injection h with h
        subst h
        have hih := ih rest hrest y
        rcases b with _ | _
        · show y ∈ rest ↔ y ∈ a :: as ∧ p y = Except.ok true
          rw [hih]
          constructor
          · intro hy
            exact ⟨List.mem_cons_of_mem a hy.1, hy.2⟩
          · intro hy
            rcases List.mem_cons.mp hy.1 with h1 | h1
            · subst h1
              rw [ha] at hy
              exact absurd hy.2 (by simp)
            · exact ⟨h1, hy.2⟩
        · show y ∈ a :: rest ↔ y ∈ a :: as ∧ p y = Except.ok true
          constructor
          · intro hy
            rcases List.mem_cons.mp hy with h1 | h1
            · exact ⟨by rw [h1]; exact List.mem_cons_self _ _, by rw [h1]; exact ha⟩
            · exact ⟨List.mem_cons_of_mem a (hih.mp h1).1, (hih.mp h1).2⟩
          · intro hy
            rcases List.mem_cons.mp hy.1 with h1 | h1
            · rw [h1]; exact List.mem_cons_self _ _
            · exact List.mem_cons_of_mem a (hih.mpr ⟨h1, hy.2⟩)

theorem rejectE_ok_mem {p : α → Except String Bool} :
    ∀ xs ys, rejectE p xs = Except.ok ys →
      ∀ y, (y ∈ ys ↔ y ∈ xs ∧ p y = Except.ok false) := by
  intro xs ys h y
  have hmem := filterE_ok_mem (p := fun a => (p a).map (fun b => !b)) xs ys h y
  rw [hmem]
  constructor
  · rintro ⟨hy, hpy⟩
    refine ⟨hy, ?_⟩
    rcases hp : p y with e | b
    · rw [hp] at hpy; simp [Except.map] at hpy
    · rw [hp] at hpy
      simp only [Except.map, Except.ok.injEq] at hpy
      rcases b with _ | _
      · rfl
      · simp at hpy
  · rintro ⟨hy, hpy⟩
    exact ⟨hy, by rw [hpy]; rfl⟩

theorem selectLogGroups_mem (incl excl : List (String → Bool)) (names : List String)
    (n : String) :
    n ∈ selectLogGroups incl excl names ↔
      n ∈ names ∧ snifflesTest n = false
        ∧ incl.any (fun f => f n) = true ∧ excl.any (fun f => f n) = false := by
  simp only [selectLogGroups, List.mem_filter, Bool.not_eq_true']
  tauto

theorem matchedEnvelopes_mem (incl excl : List Matcher) (flat out : List LogMessage)
    (m : LogMessage) (h : matchedEnvelopes incl excl flat = Except.ok out) :
    m ∈ out ↔ m ∈ flat ∧ anyPassE incl (headMsg m) = Except.ok true
      ∧ anyPassE excl (headMsg m) = Except.ok false := by
  rw [matchedEnvelopes] at h
  rcases hk : filterE (fun x => anyPassE incl (headMsg x)) flat with e | kept <;>
    simp only [bind, Except.bind, hk] at h
  · exact Except.noConfusion h
  · have h1 := filterE_ok_mem flat kept hk m
    have h2 := rejectE_ok_mem kept out h m
    rw [h2, h1]
    tauto

theorem mapME_parseRecord {V : Type} (rt : JsRuntime V) :
    ∀ records ms,
      List.Forall₂ (fun (r : KinesisRecord) (m : LogMessage) =>
        rt.decodeData r.data = Except.ok m) records ms →
      mapME (parseRecord rt) records = Except.ok (ms.map expandEnvelope) := by
  intro records ms h
  induction h with
  | nil => rfl
  | cons hd _ ih =>
    simp only [mapME, parseRecord, hd, Except.map, bind, Except.bind, ih, List.map_cons]
    rfl

/-! ## Claim C6 -/

/-- C6, counterexample. The claim states that the compiled JSON-path
matcher returns `false` rather than throwing whenever ANY stage fails,
including when evaluating the path query raises an exception. On the
pattern `{]}` (brace-shaped, but not a valid jspath expression) and the
message `{ }` the first two stages succeed, the path evaluation throws,
and `toJspathFn` propagates the exception instead of returning `false`. -/
theorem c6_counterexample :
    jsFirstBraceBlock "\x7b \x7d" = some "\x7b \x7d"
    ∧ rtJspathErr.jsonParse "\x7b \x7d" = Except.ok ()
    ∧ rtJspathErr.jspathApply ".\x7b]\x7d" () = Except.error "JSPath parse error"
    ∧ toJspathFn rtJspathErr "\x7b]\x7d" "\x7b \x7d" = Except.error "JSPath parse error"
    ∧ Except.error "JSPath parse error" ≠ (Except.ok false : Except String Bool) :=
  ⟨rfl, rfl, rfl, rfl, fun h => Except.noConfusion h⟩

/-- C6, amended: the JSON-path matcher returns `false` (without throwing)
when no `{...}` block is found or when the captured block fails to
JSON-parse; but an exception raised by the path-query evaluation is NOT
caught and propagates out of the matcher. -/
theorem c6_jspath_error_stages :
    ∀ (V : Type) (rt : JsRuntime V) (p msg : String),
      (jsFirstBraceBlock msg = none → toJspathFn rt p msg = Except.ok false)
      ∧ (∀ blk err, jsFirstBraceBlock msg = some blk →
          rt.jsonParse blk = Except.error err → toJspathFn rt p msg = Except.ok false)
      ∧ (∀ blk v err, jsFirstBraceBlock msg = some blk →
          rt.jsonParse blk = Except.ok v →
          rt.jspathApply ("." ++ p) v = Except.error err →
          toJspathFn rt p msg = Except.error err) := by
  intro V rt p msg
  refine ⟨?_, ?_, ?_⟩
  · intro h
    simp only [toJspathFn, h]
  · intro blk err h1 h2
    simp only [toJspathFn, h1, h2]
  · intro blk v err h1 h2 h3
    simp only [toJspathFn, h1, h2, h3]

/-- C6, witness: each arm of `c6_jspath_error_stages` applied at a concrete
input of its own. -/
theorem c6_jspath_error_stages_witness :
    toJspathFn rtJspathErr "\x7b]\x7d" "no braces here" = Except.ok false
    ∧ toJspathFn rtJspathErr "\x7b]\x7d" "\x7bbad\x7d" = Except.ok false
    ∧ toJspathFn rtJspathErr "\x7b]\x7d" "\x7b \x7d" = Except.error "JSPath parse error" :=
  ⟨(c6_jspath_error_stages Unit rtJspathErr "\x7b]\x7d" "no braces here").1 rfl,
   (c6_jspath_error_stages Unit rtJspathErr "\x7b]\x7d" "\x7bbad\x7d").2.1
     "\x7bbad\x7d" "SyntaxError: Unexpected token" rfl rfl,
   (c6_jspath_error_stages Unit rtJspathErr "\x7b]\x7d" "\x7b \x7d").2.2
     "\x7b \x7d" () "JSPath parse error" rfl rfl rfl⟩

/-! ## Claim C7 -/

/-- C7, counterexample. The claim states the capture is non-greedy: the
shortest span from the first open brace. On the message consisting of a
well-formed JSON object followed by text containing a stray closing brace,
the source's greedy regex captures up to the LAST closing brace, not the
shortest span. -/
theorem c7_counterexample :
    jsFirstBraceBlock msgC7 = some msgC7
    ∧ specNonGreedyBraceBlock msgC7 = some "\x7b\"a\":1\x7d"
    ∧ jsFirstBraceBlock msgC7 ≠ specNonGreedyBraceBlock msgC7 :=
  ⟨rfl, rfl, by decide⟩

/-- C7, amended: the capture handed to `JSON.parse` by the JSON-path
matcher is GREEDY — it runs from the first `'{'` of the message to the
LAST `'}'` of the message (newline-inclusive, since the class covers every
character), and a capture exists exactly when at least one character lies
strictly between the two. -/
theorem c7_greedy_capture (s b : String) (h : jsFirstBraceBlock s = some b) :
    ∃ pre bl post, s.data = pre ++ (bl ++ post) ∧ b = String.mk bl
      ∧ '{' ∉ pre ∧ '}' ∉ post
      ∧ bl.head? = some '{' ∧ bl.getLast? = some '}' ∧ 3 ≤ bl.length := by
  rcases ho : splitFirstOpen s.data with _ | ⟨pre, rest⟩
  · simp only [jsFirstBraceBlock, ho] at h
    exact Option.noConfusion h
  · rcases hc : splitLastClose rest with _ | ⟨bl, post⟩
    · simp only [jsFirstBraceBlock, ho, hc] at h
      exact Option.noConfusion h
    · simp only [jsFirstBraceBlock, ho, hc] at h
      by_cases hlen : 3 ≤ bl.length
      · rw [if_pos hlen] at h
        injection h with h
        obtain ⟨heq1, hnopre, t, ht⟩ := splitFirstOpen_spec s.data pre rest ho
        obtain ⟨heq2, hnopost, hlast⟩ := splitLastClose_spec rest bl post hc
        refine ⟨pre, bl, post, by rw [heq1, heq2], h.symm, hnopre, hnopost, ?_, hlast, hlen⟩
        rcases bl with _ | ⟨x, xs⟩
        · simp at hlast
        · have : rest = x :: (xs ++ post) := by simpa using heq2
          rw [ht] at this
          injection this with hx _
          simp [hx.symm]
      · rw [if_neg hlen] at h
        exact Option.noConfusion h

/-- C7, witness: `c7_greedy_capture` applied to the concrete message of
the counterexample. -/
theorem c7_greedy_capture_witness :
    ∃ pre bl post, msgC7.data = pre ++ (bl ++ post) ∧ msgC7 = String.mk bl
      ∧ '{' ∉ pre ∧ '}' ∉ post
      ∧ bl.head? = some '{' ∧ bl.getLast? = some '}' ∧ 3 ≤ bl.length :=
  c7_greedy_capture msgC7 msgC7 rfl

/-! ## Claim C2 -/

/-- C2, counterexample. The claim states `toMatcherFunction p` returns a
predicate without throwing for EVERY string, including regex-literal
shapes whose body is not a valid regular expression. The pattern `/(/`
matches the shape with body `(`, which the JS engine rejects:
`new RegExp("(")` throws, and since `toRegExpFn` constructs the regex at
classification time, `toMatcherFunction` itself throws. -/
theorem c2_counterexample :
    parseRegexLiteral "/(/" = some ("(", "")
    ∧ toMatcherFunction rtParen "/(/" =
        Except.error "SyntaxError: Invalid regular expression: Unterminated group" :=
  ⟨rfl, rfl⟩

/-- C2, amended: pattern compilation and the compiled predicates are total
EXCEPT for two cases. On a regex-literal-shaped pattern, the matcher
behaves as the engine's compile-then-test: the engine's rejection of the
body is thrown at compile time (and when the engine accepts, the predicate
is total). On every other pattern compilation succeeds; the substring arm
is total, the JSON-path arm can only throw through the path-query
evaluation (see C6). -/
theorem c2_compile_totality :
    ∀ (V : Type) (rt : JsRuntime V) (p : String),
      (∀ body flags msg, parseRegexLiteral p = some (body, flags) →
        applyMatcher (toMatcherFunction rt p) msg =
          applyCompiledRegex (rt.regexCompile body flags) msg)
      ∧ (∀ msg, parseRegexLiteral p = none →
          (startsWithOpenBrace p && endsWithCloseBrace p) = false →
          applyMatcher (toMatcherFunction rt p) msg = Except.ok (jsStringIncludes msg p))
      ∧ (∀ msg, parseRegexLiteral p = none →
          (startsWithOpenBrace p && endsWithCloseBrace p) = true →
          applyMatcher (toMatcherFunction rt p) msg = toJspathFn rt p msg)
      ∧ (∀ msg e, toJspathFn rt p msg = Except.error e →
          ∃ blk v, jsFirstBraceBlock msg = some blk ∧ rt.jsonParse blk = Except.ok v ∧
            rt.jspathApply ("." ++ p) v = Except.error e) := by
  intro V rt p
  refine ⟨?_, ?_, ?_, ?_⟩
  · intro body flags msg h
    rcases hre : rt.regexCompile body flags with e | t <;>
      simp only [toMatcherFunction, h, hre, Except.map, applyMatcher, applyCompiledRegex]
  · intro msg h hb
    simp only [toMatcherFunction, h, hb]
    rfl
  · intro msg h hb
    simp only [toMatcherFunction, h, hb]
    rfl
  · intro msg e h
    rcases ho : jsFirstBraceBlock msg with _ | blk <;>
      simp only [toJspathFn, ho] at h
    · exact Except.noConfusion h
    · rcases hj : rt.jsonParse blk with err | v <;> simp only [hj] at h
      · exact Except.noConfusion h
      · rcases ha : rt.jspathApply ("." ++ p) v with e2 | results <;> simp only [ha] at h
        · injection h with h
          exact ⟨blk, v, rfl, hj, by rw [← h]; exact ha⟩
        · exact Except.noConfusion h

/-- C2, witness: each arm of `c2_compile_totality` applied at a concrete
input of its own (the regex arm at the throwing pattern of the
counterexample, the substring arm at a plain literal, the jspath arms at
the brace pattern of C6). -/
theorem c2_compile_totality_witness :
    applyMatcher (toMatcherFunction rtParen "/(/") "x" =
      applyCompiledRegex (rtParen.regexCompile "(" "") "x"
    ∧ applyMatcher (toMatcherFunction rtLit "ERROR") "an ERROR here" =
        Except.ok (jsStringIncludes "an ERROR here" "ERROR")
    ∧ applyMatcher (toMatcherFunction rtJspathErr "\x7b]\x7d") "\x7b \x7d" =
        toJspathFn rtJspathErr "\x7b]\x7d" "\x7b \x7d"
    ∧ (∃ blk v, jsFirstBraceBlock "\x7b \x7d" = some blk
        ∧ rtJspathErr.jsonParse blk = Except.ok v
        ∧ rtJspathErr.jspathApply ".\x7b]\x7d" v = Except.error "JSPath parse error") :=
  ⟨(c2_compile_totality Unit rtParen "/(/").1 "(" "" "x" rfl,
   (c2_compile_totality Unit rtLit "ERROR").2.1 "an ERROR here" rfl rfl,
   (c2_compile_totality Unit rtJspathErr "\x7b]\x7d").2.2.1 "\x7b \x7d" rfl rfl,
   (c2_compile_totality Unit rtJspathErr "\x7b]\x7d").2.2.2 "\x7b \x7d"
     "JSPath parse error" rfl⟩

/-! ## Claim C8 -/

/-- C8, counterexample. The claim gives the regex-literal shape as
`^/[^/]+/[a-z]*$`. The pattern `/a/x` matches that shape, but the source
tests flags against `[gimsuy]*`, so `/a/x` falls through to the substring
arm: with a runtime whose regex engine rejects everything, the compiled
matcher still succeeds and behaves as substring containment (true on the
message `/a/x` itself, false on `a`, which the regex `/a/` would match). -/
theorem c8_counterexample :
    specRegexShape "/a/x" = true
    ∧ parseRegexLiteral "/a/x" = none
    ∧ rtCompileFail.regexCompile "a" "x" = Except.error "COMPILE"
    ∧ applyMatcher (toMatcherFunction rtCompileFail "/a/x") "a" = Except.ok false
    ∧ applyMatcher (toMatcherFunction rtCompileFail "/a/x") "/a/x" = Except.ok true :=
  ⟨by decide, by decide, rfl, rfl, rfl⟩

/-- C8, amended: the three-way dispatch holds with the flag class
`[gimsuy]*` in place of the claim's `[a-z]*`: a pattern fully matching
`^/[^/]+/[gimsuy]*$` (characterized independently in the first conjunct)
compiles into the engine's regex matcher; otherwise a pattern that starts
with an open brace and ends with a close brace compiles into the JSON-path
matcher; every other pattern compiles into the case-sensitive substring
matcher with `compile p msg = msg.includes p`. -/
theorem c8_dispatch :
    (∀ p body flags, parseRegexLiteral p = some (body, flags) ↔
        (p = "/" ++ body ++ "/" ++ flags ∧ body ≠ ""
          ∧ (∀ c ∈ body.data, ¬ c = '/') ∧ (∀ c ∈ flags.data, isFlagChar c = true)))
    ∧ (∀ (V : Type) (rt : JsRuntime V) p body flags,
        parseRegexLiteral p = some (body, flags) →
        toMatcherFunction rt p =
          (rt.regexCompile body flags).map (fun t => fun msg => Except.ok (t msg)))
    ∧ (∀ (V : Type) (rt : JsRuntime V) p, parseRegexLiteral p = none →
        (startsWithOpenBrace p && endsWithCloseBrace p) = true →
        toMatcherFunction rt p = Except.ok (toJspathFn rt p))
    ∧ (∀ (V : Type) (rt : JsRuntime V) p msg, parseRegexLiteral p = none →
        (startsWithOpenBrace p && endsWithCloseBrace p) = false →
        applyMatcher (toMatcherFunction rt p) msg = Except.ok (jsStringIncludes msg p)) := by
  refine ⟨?_, ?_, ?_, ?_⟩
  · intro p body flags
    exact parseRegexLiteral_char p body flags
  · intro V rt p body flags h
    simp only [toMatcherFunction, h]
  · intro V rt p h hb
    simp only [toMatcherFunction, h, hb]
    rfl
  · intro V rt p msg h hb
    simp only [toMatcherFunction, h, hb]
    rfl

/-- C8, witness: each arm of `c8_dispatch` applied at a concrete pattern
of its own (a regex literal, the brace pattern, a plain substring). -/
theorem c8_dispatch_witness :
    parseRegexLiteral "/ERROR/" = some ("ERROR", "")
    ∧ toMatcherFunction rtLit "/ERROR/" =
        (rtLit.regexCompile "ERROR" "").map (fun t => fun msg => Except.ok (t msg))
    ∧ toMatcherFunction rtJspathErr "\x7b]\x7d" =
        Except.ok (toJspathFn rtJspathErr "\x7b]\x7d")
    ∧ applyMatcher (toMatcherFunction rtLit "plain") "contains plain text" =
        Except.ok (jsStringIncludes "contains plain text" "plain") :=
  ⟨(c8_dispatch.1 "/ERROR/" "ERROR" "").mpr ⟨by decide, by decide, by decide, by decide⟩,
   c8_dispatch.2.1 Unit rtLit "/ERROR/" "ERROR" "" rfl,
   c8_dispatch.2.2.1 Unit rtJspathErr "\x7b]\x7d" rfl rfl,
   c8_dispatch.2.2.2 Unit rtLit "plain" "contains plain text" rfl rfl⟩

/-! ## Claim C3 -/

/-- C3, as claimed: decoding is lossless and order-preserving. For a
well-formed record whose envelope carries N log events, `parseRecord`
yields exactly N envelopes, the i-th identical to the source envelope
except that `logEvents` is the singleton holding the i-th source event
(and hence every downstream envelope has exactly one event); over a batch,
the handler's `chain(parseRecord)` stage produces the per-record
expansions concatenated in record order. -/
theorem c3_decode_lossless :
    (∀ (V : Type) (rt : JsRuntime V) (r : KinesisRecord) (m : LogMessage)
        (es : List LogMessage),
        rt.decodeData r.data = Except.ok m → parseRecord rt r = Except.ok es →
        es.length = m.logEvents.length
        ∧ (∀ (i : Nat) (h1 : i < es.length) (h2 : i < m.logEvents.length),
            es.get ⟨i, h1⟩ = { m with logEvents := [m.logEvents.get ⟨i, h2⟩] })
        ∧ (∀ x ∈ es, x.logEvents.length = 1))
    ∧ (∀ (V : Type) (rt : JsRuntime V) (records : List KinesisRecord)
        (ms : List LogMessage),
        List.Forall₂ (fun r m => rt.decodeData r.data = Except.ok m) records ms →
        decodeAll rt records = Except.ok ((ms.map expandEnvelope).flatten)) := by
  constructor
  · intro V rt r m es hdec hparse
    rw [parseRecord, hdec] at hparse
    simp only [Except.map] at hparse
    injection hparse with hes
    subst hes
    refine ⟨by simp [expandEnvelope], ?_, ?_⟩
    · intro i h1 h2
      simp [expandEnvelope, List.get_eq_getElem, List.getElem_map]
    · intro x hx
      obtain ⟨e, _, hxe⟩ := List.mem_map.mp (by simpa [expandEnvelope] using hx)
      rw [← hxe]
      rfl
  · intro V rt records ms h
    rw [decodeAll, mapME_parseRecord rt records ms h]
    rfl

/-- C3, witness: the per-record part of `c3_decode_lossless` applied to the
two-event fixture at index 1, and the batch part applied to a two-record
batch. -/
theorem c3_decode_lossless_witness :
    (expandEnvelope msgC3).get ⟨1, by decide⟩ =
      { msgC3 with logEvents := [msgC3.logEvents.get ⟨1, by decide⟩] }
    ∧ decodeAll rtC3 [{ data := "d1" }, { data := "d2" }] =
        Except.ok (([msgC3, msgC3b].map expandEnvelope).flatten) :=
  ⟨(c3_decode_lossless.1 Unit rtC3 { data := "d1" } msgC3 (expandEnvelope msgC3)
      rfl rfl).2.1 1 (by decide) (by decide),
   c3_decode_lossless.2 Unit rtC3 [{ data := "d1" }, { data := "d2" }] [msgC3, msgC3b]
     (List.Forall₂.cons rfl (List.Forall₂.cons rfl List.Forall₂.nil))⟩

/-! ## Claim C4 -/

/-- C4, counterexample. The claim states a candidate log group name is
kept IFF it matches at least one inclusion matcher and no exclusion
matcher. The name `sniffles` matches the inclusion regex `n` (substring
semantics of the literal pattern) and the exclusion list is empty, yet the
Selector drops it: the hard-coded feedback-loop guard precedes the
inclusion/exclusion test. -/
theorem c4_counterexample :
    applyCompiledRegex (rtLit.regexCompile "n" "") "sniffles" = Except.ok true
    ∧ filterLogGroups rtLit ["sniffles"] ["n"] [] = Except.ok [] :=
  ⟨rfl, rfl⟩

/-- C4, amended: in the Filter, a decoded envelope is kept iff its message
matches at least one inclusion matcher and none of the exclusion matchers;
in the Selector the same holds among the names that pass the hard-coded
sniffles guard (which drops names matching the guard regardless of the
patterns). In both, a candidate matching an inclusion and an exclusion
matcher is dropped. -/
theorem c4_exclusion_priority :
    (∀ (incl excl : List (String → Bool)) (names : List String) (n : String),
        n ∈ selectLogGroups incl excl names ↔
          n ∈ names ∧ snifflesTest n = false
            ∧ incl.any (fun f => f n) = true ∧ excl.any (fun f => f n) = false)
    ∧ (∀ (incl excl : List Matcher) (flat out : List LogMessage) (m : LogMessage),
        matchedEnvelopes incl excl flat = Except.ok out →
        (m ∈ out ↔ m ∈ flat ∧ anyPassE incl (headMsg m) = Except.ok true
          ∧ anyPassE excl (headMsg m) = Except.ok false)) :=
  ⟨selectLogGroups_mem, matchedEnvelopes_mem⟩

/-- C4, witness: the Selector part of `c4_exclusion_priority` at a concrete
name kept under inclusion `a` and exclusion `b`, and the Filter part at the
concrete matched envelope of C1. -/
theorem c4_exclusion_priority_witness :
    ("ax" ∈ selectLogGroups [fun s => jsStringIncludes s "a"]
        [fun s => jsStringIncludes s "b"] ["abc", "ax"] ↔
      "ax" ∈ ["abc", "ax"] ∧ snifflesTest "ax" = false
        ∧ [fun s => jsStringIncludes s "a"].any (fun f => f "ax") = true
        ∧ [fun s => jsStringIncludes s "b"].any (fun f => f "ax") = false)
    ∧ (msgC1 ∈ [msgC1] ↔ msgC1 ∈ [msgC1]
        ∧ anyPassE [fun msg => Except.ok (jsStringIncludes msg "ERROR")]
            (headMsg msgC1) = Except.ok true
        ∧ anyPassE ([] : List Matcher) (headMsg msgC1) = Except.ok false) :=
  ⟨c4_exclusion_priority.1 [fun s => jsStringIncludes s "a"]
      [fun s => jsStringIncludes s "b"] ["abc", "ax"] "ax",
   c4_exclusion_priority.2 [fun msg => Except.ok (jsStringIncludes msg "ERROR")]
     [] [msgC1] [msgC1] msgC1 rfl⟩

/-! ## Claim C5 -/

/-- C5, counterexample. The claim states every name containing `sniffles`
in ANY capitalization is excluded. The guard regex is `/[sS]niffles/`, so
the all-caps name `SNIFFLES` passes the guard and, matching the inclusion
pattern `IFF`, is subscribed; the legacy subscriber's guard is
`/Sniffles/` only, so even the all-lowercase `sniffles` survives there. -/
theorem c5_counterexample :
    snifflesTest "SNIFFLES" = false
    ∧ filterLogGroups rtLit ["SNIFFLES"] ["IFF"] [] = Except.ok ["SNIFFLES"]
    ∧ subscriberFilterLogGroups rtLit ["sniffles"] ["n"] = Except.ok ["sniffles"] :=
  ⟨by decide, rfl, rfl⟩

/-- C5, amended: any name containing `sniffles` or `Sniffles` (the two
spellings matched by `/[sS]niffles/`) is excluded by the Selector's
`filterLogGroups` regardless of the inclusion and exclusion patterns; the
legacy subscriber's `filterLogGroups` excludes, regardless of its
patterns, exactly the names containing `Sniffles`. -/
theorem c5_sniffles_guard :
    (∀ (V : Type) (rt : JsRuntime V) (names inclP exclP out : List String) (n : String),
        filterLogGroups rt names inclP exclP = Except.ok out →
        snifflesTest n = true → n ∉ out)
    ∧ (∀ (V : Type) (rt : JsRuntime V) (names pats out : List String) (n : String),
        subscriberFilterLogGroups rt names pats = Except.ok out →
        snifflesTestCap n = true → n ∉ out) := by
  constructor
  · intro V rt names inclP exclP out n h hsn hmem
    rw [filterLogGroups] at h
    rcases hi : mapME (fun p => rt.regexCompile p "") inclP with e | incl <;>
      simp only [bind, Except.bind, hi] at h
    · exact Except.noConfusion h
    · rcases he : mapME (fun p => rt.regexCompile p "") exclP with e | excl <;>
        simp only [he] at h
      · exact Except.noConfusion h
      · change Except.ok (selectLogGroups incl excl names) = Except.ok out at h
        injection h with h
        rw [← h] at hmem
        have := ((selectLogGroups_mem incl excl names n).mp hmem).2.1
        rw [hsn] at this
        exact Bool.noConfusion this
  · intro V rt names pats out n h hsn hmem
    rw [subscriberFilterLogGroups] at h
    rcases hf : mapME (fun p => rt.regexCompile p "") pats with e | fns <;>
      simp only [bind, Except.bind, hf] at h
    · exact Except.noConfusion h
    · change Except.ok _ = Except.ok out at h
      injection h with h
      rw [← h] at hmem
      have h1 := (List.mem_filter.mp hmem).1
      have h2 := (List.mem_filter.mp h1).2
      rw [hsn] at h2
      exact Bool.noConfusion h2

/-- C5, witness: both parts of `c5_sniffles_guard` applied at concrete
selector runs in which a guarded name is dropped while another name
survives. -/
theorem c5_sniffles_guard_witness :
    "Snifflesx" ∉ ["prod-a"]
    ∧ "aSniffles" ∉ ["ap"] :=
  ⟨c5_sniffles_guard.1 Unit rtLit ["Snifflesx", "prod-a"] ["prod"] [] ["prod-a"]
      "Snifflesx" rfl (by decide),
   c5_sniffles_guard.2 Unit rtLit ["aSniffles", "ap"] ["p"] ["ap"]
     "aSniffles" rfl (by decide)⟩

/-! ## Claim C1 -/

/-- C1: the Filter handler's settlement is INDEPENDENT of the publish
outcomes — `publishLog` floats the SNS promise (no `await`/`return`), so
`Promise.all` joins promises that are already resolved, and the terminal
catch converts any remaining rejection into a resolution. Concretely, on a
batch whose single decoded envelope matches the inclusion patterns and
whose SNS publish REJECTS, the handler still resolves `"OK"` — the
invocation is reported successful, contradicting the claim that a publish
failure fails the whole invocation. -/
theorem c1_publish_not_awaited :
    (∀ (V : Type) (env : FilterEnv V) (event : List KinesisRecord)
        (po : LogMessage → Except String Unit),
        filterHandler { env with publishOutcome := po } event = filterHandler env event)
    ∧ filterHandler envC1 [recC1] = Except.ok (some "OK")
    ∧ envC1.publishOutcome msgC1 = Except.error "SNS publish failed"
    ∧ decodeAll envC1.rt [recC1] = Except.ok [msgC1]
    ∧ jsStringIncludes (headMsg msgC1) "ERROR" = true :=
  ⟨fun _ _ _ _ => rfl, rfl, rfl, rfl, by decide⟩

/-! ## Claim C9 -/

/-- C9, counterexample. The claim states that when the log event's message
fails to JSON-parse, the inner message falls back to the empty string
instead of the invocation failing. The Forwarder's handler calls
`JSON.parse(logEvents[0].message)` with no catch: on an envelope whose
event message is not JSON the handler rejects, and no publish happens. -/
theorem c9_counterexample :
    envC9.parseEnvelope "evt" = Except.ok msgC9
    ∧ msgC9.logEvents = [evC9]
    ∧ envC9.parseInner evC9.message =
        Except.error "SyntaxError: Unexpected token p in JSON"
    ∧ forwarderHandler envC9 ["evt"] =
        Except.error "SyntaxError: Unexpected token p in JSON" :=
  ⟨rfl, rfl, rfl, rfl⟩

/-- C9, amended: for an envelope with owner `o`, log group `g`, and a sole
log event whose message is JSON with inner field `message` equal to `m`,
the Forwarder publishes the envelope itself as the body with subject the
first 100 characters of `o ++ " " ++ g ++ " " ++ m` and
`eventType = "create"`; but when the event's message fails to JSON-parse
the handler REJECTS (the invocation fails) — the empty-string fallback
exists only in the legacy combined filter's `parseMessage`. -/
theorem c9_forwarder_subject :
    (∀ (env : FwdEnv) (evtMsg : String) (lm : LogMessage) (e : LogEvent) (inner : String),
        env.parseEnvelope evtMsg = Except.ok lm → lm.logEvents = [e] →
        env.parseInner e.message = Except.ok inner →
        forwarderPublishInput env evtMsg = Except.ok
          { topicArn := env.topic
            subject := jsTake 100 (lm.owner ++ " " ++ lm.logGroup ++ " " ++ inner)
            body := lm
            eventType := "create" })
    ∧ (∀ (env : FwdEnv) (evtMsg : String) (lm : LogMessage) (e : LogEvent) (err : String),
        env.parseEnvelope evtMsg = Except.ok lm → lm.logEvents = [e] →
        env.parseInner e.message = Except.error err →
        forwarderHandler env [evtMsg] = Except.error err)
    ∧ (∀ (parseInner : String → Except String String) (lm : LogMessage) (e : LogEvent)
        (err : String),
        lm.logEvents = [e] → parseInner e.message = Except.error err →
        parseMessageLegacy parseInner lm = "") := by
  refine ⟨?_, ?_, ?_⟩
  · intro env evtMsg lm e inner h1 h2 h3
    simp only [forwarderPublishInput, h1, h2, h3, bind, Except.bind]
    rfl
  · intro env evtMsg lm e err h1 h2 h3
    simp only [forwarderHandler, forwarderPublishInput, h1, h2, h3, bind, Except.bind]
  · intro parseInner lm e err h1 h2
    simp only [parseMessageLegacy, h1, h2]

/-- C9, witness: the success arm of `c9_forwarder_subject` at the spec's
own scenario (owner `111122223333`, log group `logGroup!`, inner message
`hello there`), and the two failure arms at the non-JSON fixture. -/
theorem c9_forwarder_subject_witness :
    forwarderPublishInput envC9 "evt2" = Except.ok
      { topicArn := envC9.topic
        subject := jsTake 100 (msgC9ok.owner ++ " " ++ msgC9ok.logGroup ++ " " ++ "hello there")
        body := msgC9ok
        eventType := "create" }
    ∧ forwarderHandler envC9 ["evt"] =
        Except.error "SyntaxError: Unexpected token p in JSON"
    ∧ parseMessageLegacy envC9.parseInner msgC9 = "" :=
  ⟨c9_forwarder_subject.1 envC9 "evt2" msgC9ok evC9ok "hello there" rfl rfl rfl,
   c9_forwarder_subject.2.1 envC9 "evt" msgC9 evC9
     "SyntaxError: Unexpected token p in JSON" rfl rfl rfl,
   c9_forwarder_subject.2.2 envC9.parseInner msgC9 evC9
     "SyntaxError: Unexpected token p in JSON" rfl rfl⟩

/-! ## Claim C10 -/

/-- C10: when the pattern fetch rejects, neither handler fails the
invocation. Both handlers end in `.catch(console.error)`, so the rejection
coming from the configuration store is consumed and the handler RESOLVES
(with `undefined`); more generally the promise either handler returns can
never reject. This contradicts the claim that the handlers report the
invocation as failed. -/
theorem c10_config_error_swallowed :
    envC10f.inclusionPatterns = Except.error "ParameterNotFound: inclusions"
    ∧ filterHandler envC10f [] = Except.ok none
    ∧ envC10s.logGroupsAndPatterns =
        Except.error "ParameterNotFound: subscription patterns"
    ∧ subscriptionHandler envC10s = Except.ok none
    ∧ (∀ (V : Type) (env : FilterEnv V) (event : List KinesisRecord),
        ∃ r, filterHandler env event = Except.ok r)
    ∧ (∀ (V : Type) (env : SubEnv V),
        ∃ r, subscriptionHandler env = Except.ok r) := by
  refine ⟨rfl, rfl, rfl, rfl, ?_, ?_⟩
  · intro V env event
    rw [filterHandler]
    rcases filterHandlerCore env event with e | s
    · exact ⟨none, rfl⟩
    · exact ⟨some s, rfl⟩
  · intro V env
    rw [subscriptionHandler]
    rcases subscriptionHandlerCore env with e | s
    · exact ⟨none, rfl⟩
    · exact ⟨some s, rfl⟩

end Sniffles
